import Mathlib

/-!
Verification development for the Runtime Acquisition and Self-Healing
Execution subsystem of the piebash repository.

The Rust sources are shallowly embedded as executable Lean definitions:

* `DependencyDetector` (src/executor/dependency_detector.rs) — the
  per-ecosystem error-text classifiers.  The constant regular expressions
  of the Rust code are embedded as explicit scanning functions over
  `List Char` with the same leftmost, non-overlapping, greedy match
  semantics the regex crate gives to those particular patterns.
* `CodeExecutor::execute` (src/executor/code/executor.rs) — the
  self-healing retry loop, embedded as a fuel-indexed step function over
  an explicit loop state; the two effectful operations (running one
  execution attempt, running one package-manager install) are oracles
  supplied by an `ExecTrace`.
* `RuntimeDownloader::download` (src/runtime/downloader/downloader.rs) —
  cache / checksum / re-download policy; SHA-256 itself is abstracted as
  an oracle hash function, the file system and the network as oracles.
* `RuntimeManager` (src/runtime/manager/manager.rs) — index lookup,
  install pipeline, startup scan; registry, platform, downloader,
  installer and the probe are oracles, the in-memory index is explicit.
-/

namespace Piebash

/-- Single quote character (codepoint 39), used by several patterns. -/
def quoteC : Char := Char.ofNat 39

/-- Backtick character (codepoint 96), delimiter of the rustc pattern. -/
def backtickC : Char := Char.ofNat 96

/-- Backslash character (codepoint 92), namespace separator in PHP. -/
def backslashC : Char := Char.ofNat 92

/-- Newline character (codepoint 10). -/
def newlineC : Char := Char.ofNat 10

/-- One-character string holding a single quote, for building inputs. -/
def sq : String := String.mk [quoteC]

/-- Whitespace class of the regex crate: space, tab, newline, carriage
return, vertical tab, form feed. -/
def rustIsSpace (c : Char) : Bool :=
  c = Char.ofNat 32 || c = Char.ofNat 9 || c = Char.ofNat 10 ||
  c = Char.ofNat 13 || c = Char.ofNat 11 || c = Char.ofNat 12

/-- Drop a literal from the front of a character list; `none` when the
list does not start with the literal. -/
def dropLit : List Char → List Char → Option (List Char)
  | [], s => some s
  | _ :: _, [] => none
  | l :: ls, c :: cs => if c = l then dropLit ls cs else none

/-- Maximal run of characters satisfying `p`, with the remainder. -/
def takeRun (p : Char → Bool) : List Char → List Char × List Char
  | [] => ([], [])
  | c :: cs =>
    if p c then
      let r := takeRun p cs
      (c :: r.1, r.2)
    else ([], c :: cs)

/-- Boolean starts-with test on strings, via character lists (the
string-level primitive of the standard library is not kernel
reducible). -/
def strStarts (p s : String) : Bool :=
  (dropLit p.data s.data).isSome

/-- Fuel-indexed splitter of a character list on a non-empty separator;
the fuel starts at the input length and every step consumes at least one
character, so the fuel never runs out on the inputs used. -/
def splitGo (sep : List Char) : Nat → List Char → List Char → List (List Char)
  | _, acc, [] => [acc.reverse]
  | 0, acc, rest => [acc.reverse ++ rest]
  | n + 1, acc, c :: cs =>
    match dropLit sep (c :: cs) with
    | some rest => acc.reverse :: splitGo sep n [] rest
    | none => splitGo sep n (c :: acc) cs

/-- Split a string on every non-overlapping occurrence of a non-empty
separator, with the split semantics of the Rust standard library. -/
def splitOnS (sep s : String) : List String :=
  (splitGo sep.data s.data.length [] s.data).map List.asString

/-- Join strings with a separator between consecutive elements. -/
def joinSep (sep : String) : List String → String
  | [] => ""
  | [x] => x
  | x :: xs => x ++ sep ++ joinSep sep xs

/-- ASCII lowercasing via the character list. -/
def toLowerS (s : String) : String :=
  (s.data.map Char.toLower).asString

/-- Matcher for a pattern of shape: literal, then one-or-more characters
other than `q` (captured), then `q`.  Returns the capture and the rest of
the input after the closing delimiter. -/
def matchLitCaptureQuote (lit : List Char) (q : Char) (s : List Char) :
    Option (List Char × List Char) :=
  match dropLit lit s with
  | none => none
  | some rest =>
    let r := takeRun (fun c => !(c = q)) rest
    if r.1 = [] then none
    else
      match r.2 with
      | [] => none
      | c :: rest3 => if c = q then some (r.1, rest3) else none

/-- Matcher for a pattern of shape: literal, then one-or-more characters
of a class (captured), with nothing after the capture. -/
def matchLitCaptureRun (lit : List Char) (ok : Char → Bool) (s : List Char) :
    Option (List Char × List Char) :=
  match dropLit lit s with
  | none => none
  | some rest =>
    let r := takeRun ok rest
    if r.1 = [] then none else some (r.1, r.2)

/-- Matcher for a pattern of shape: literal, then one-or-more characters
of a class (captured), then a trailing literal whose first character is
outside the class (so the greedy run is forced to be maximal). -/
def matchLitCaptureRunLit (lit : List Char) (ok : Char → Bool)
    (post : List Char) (s : List Char) : Option (List Char × List Char) :=
  match dropLit lit s with
  | none => none
  | some rest =>
    let r := takeRun ok rest
    if r.1 = [] then none
    else
      match dropLit post r.2 with
      | none => none
      | some rest3 => some (r.1, rest3)

/-- Backtracking helper: the capture is the reverse of `revPre`; when the
trailing literal does not match, move one character from the end of the
capture back onto the suffix (greedy run shrinking), failing once the
capture would become empty. -/
def backtrackRun (post : List Char) : List Char → List Char →
    Option (List Char × List Char)
  | [], _ => none
  | c :: revPre, suffix =>
    match dropLit post suffix with
    | some rest3 => some ((c :: revPre).reverse, rest3)
    | none => backtrackRun post revPre (c :: suffix)

/-- Matcher for the Perl pattern: literal, greedy run of non-whitespace
(captured), then a trailing literal that itself starts with characters of
the class, so genuine backtracking from the longest capture is needed. -/
def matchLitCaptureBacktrack (lit : List Char) (ok : Char → Bool)
    (post : List Char) (s : List Char) : Option (List Char × List Char) :=
  match dropLit lit s with
  | none => none
  | some rest =>
    let r := takeRun ok rest
    backtrackRun post r.1.reverse r.2

/-- Scan for all non-overlapping matches of `m`, leftmost first,
restarting one character later after a failed match attempt and right
after the match after a successful one.  The fuel starts at the length of
the input; every successful match of the patterns used here consumes at
least one character, so the fuel never runs out before the input does. -/
def scanAllAux (m : List Char → Option (List Char × List Char)) :
    Nat → List Char → List (List Char)
  | 0, _ => []
  | _ + 1, [] => []
  | n + 1, c :: cs =>
    match m (c :: cs) with
    | some r => r.1 :: scanAllAux m n r.2
    | none => scanAllAux m n cs

/-- All captures of matcher `m` over the input, in order. -/
def scanAll (m : List Char → Option (List Char × List Char))
    (s : List Char) : List (List Char) :=
  scanAllAux m s.length s

/-- Structured missing-dependency descriptor, from
src/executor/dependency_detector.rs. -/
structure MissingDependency where
  language : String
  package : String
  package_manager : String
  install_command : List String
deriving Repr, DecidableEq

/-- Import-name to package-name table of the Python ecosystem. -/
def pythonMapping : List (String × String) :=
  [("PIL", "Pillow"),
   ("cv2", "opencv-python"),
   ("sklearn", "scikit-learn"),
   ("yaml", "PyYAML"),
   ("bs4", "beautifulsoup4"),
   ("dateutil", "python-dateutil"),
   ("dotenv", "python-dotenv"),
   ("sqlalchemy", "SQLAlchemy"),
   ("redis", "redis"),
   ("pymongo", "pymongo"),
   ("psycopg2", "psycopg2-binary")]

/-- Normalize a Python import name to a pip package name: table entry
when the import equals a key or starts with the key and a dot, else the
first dotted segment. -/
def python_import_to_package (import_name : String) : String :=
  match pythonMapping.find?
      (fun p => import_name = p.1 || strStarts (p.1 ++ ".") import_name) with
  | some p => p.2
  | none => ((splitOnS "." import_name).headD import_name)

/-- Fixed list of Node.js built-in core module names. -/
def nodeCoreModules : List String :=
  ["assert", "buffer", "child_process", "cluster", "crypto",
   "dgram", "dns", "domain", "events", "fs", "http", "https",
   "net", "os", "path", "punycode", "querystring", "readline",
   "repl", "stream", "string_decoder", "timers", "tls", "tty",
   "url", "util", "v8", "vm", "zlib"]

/-- Membership test in the Node.js core module list. -/
def is_node_core_module (m : String) : Bool :=
  nodeCoreModules.contains m

/-- Known Java package to Maven coordinate table. -/
def javaMappings : List (String × String) :=
  [("com.google.gson", "com.google.code.gson:gson:2.10"),
   ("org.json", "org.json:json:20230227"),
   ("com.fasterxml.jackson", "com.fasterxml.jackson.core:jackson-databind:2.15.0")]

/-- Map a Java package name to a Maven coordinate: table entry on a
matching package-name start, else a synthesized coordinate from the last
dotted segment. -/
def java_package_to_maven (package : String) : String :=
  match javaMappings.find? (fun p => strStarts p.1 package) with
  | some p => p.2
  | none =>
    package ++ ":" ++ ((splitOnS "." package).getLastD "artifact") ++ ":LATEST"

/-- One-character string holding a backslash. -/
def bss : String := String.mk [backslashC]

/-- Known PHP namespace to Composer package table. -/
def phpMappings : List (String × String) :=
  [("Monolog" ++ bss, "monolog/monolog"),
   ("Symfony" ++ bss, "symfony/symfony"),
   ("Guzzle" ++ bss, "guzzlehttp/guzzle"),
   ("PHPUnit" ++ bss, "phpunit/phpunit")]

/-- Map a PHP class name to a Composer package: table entry on a
matching namespace start, else the first namespace segment lowercased.
The Rust code uses full Unicode lowercasing; the embedding uses ASCII
lowercasing, which agrees on every table-missing ASCII class name. -/
def php_class_to_package (className : String) : String :=
  match phpMappings.find? (fun p => strStarts p.1 className) with
  | some p => p.2
  | none => toLowerS ((splitOnS bss className).headD className)

/-- Append a dependency unless one with the same package name is already
present; this is the dedup guard the second pattern of an ecosystem runs
against the accumulated list. -/
def pushIfNewPackage (dep : MissingDependency) (acc : List MissingDependency) :
    List MissingDependency :=
  if acc.any (fun d => d.package = dep.package) then acc else acc ++ [dep]

/-- Fold a list of second-pattern dependencies onto an accumulated list
with the dedup guard. -/
def pass2 (ds : List MissingDependency) (init : List MissingDependency) :
    List MissingDependency :=
  ds.foldl (fun acc d => pushIfNewPackage d acc) init

/-- The final step every ecosystem parser shares: an empty list becomes
`none`, a non-empty one `some`. -/
def noneIfEmpty (deps : List MissingDependency) :
    Option (List MissingDependency) :=
  if deps = [] then none else some deps

/-- Build a Python dependency entry. -/
def mkPythonDep (package : String) : MissingDependency :=
  ⟨"python", package, "pip", ["install", package]⟩

/-- Literal of the first Python pattern. -/
def pyLit1 : List Char := "ModuleNotFoundError: No module named ".data ++ [quoteC]

/-- Backtracking part of the ImportError matcher: try the trailing
pattern at the current suffix; on failure move one consumed line
character back from the dot-star. -/
def pythonImportBack : List Char → List Char → Option (List Char × List Char)
  | revSkip, suffix =>
    match matchLitCaptureQuote ("from ".data ++ [quoteC]) quoteC suffix with
    | some r => some r
    | none =>
      match revSkip with
      | [] => none
      | c :: revSkip2 => pythonImportBack revSkip2 (c :: suffix)

/-- Matcher of the second Python pattern: the literal ImportError colon,
a greedy dot-star that cannot cross a newline, then from, a space, a
quote, a non-empty capture of non-quote characters and a closing quote.
Greediness makes the match use the last feasible start of the trailing
part on the line. -/
def matchPythonImport (s : List Char) : Option (List Char × List Char) :=
  match dropLit "ImportError:".data s with
  | none => none
  | some rest =>
    let r := takeRun (fun c => !(c = newlineC)) rest
    pythonImportBack r.1.reverse r.2

/-- Entries produced by the first Python pattern loop
(ModuleNotFoundError), in match order, pushed without deduplication. -/
def pythonDeps1 (output : String) : List MissingDependency :=
  (scanAll (matchLitCaptureQuote pyLit1 quoteC) output.data).map
    (fun m => mkPythonDep (python_import_to_package m.asString))

/-- Entries the second Python pattern loop (ImportError) offers to the
dedup guard, in match order, before deduplication. -/
def pythonDeps2 (output : String) : List MissingDependency :=
  (scanAll matchPythonImport output.data).map
    (fun m => mkPythonDep (python_import_to_package m.asString))

/-- Python classifier: both patterns, the second deduplicated against the
accumulated list, from src/executor/dependency_detector.rs. -/
def parse_python_error (output : String) : Option (List MissingDependency) :=
  noneIfEmpty (pass2 (pythonDeps2 output) (pythonDeps1 output))

/-- Build a Node dependency entry. -/
def mkNodeDep (package : String) : MissingDependency :=
  ⟨"node", package, "npm", ["install", package]⟩

/-- Node classifier: the cannot-find-module and cannot-resolve patterns,
both filtered by the core-module list, the second also deduplicated. -/
def parse_node_error (output : String) : Option (List MissingDependency) :=
  let caps1 := scanAll
    (matchLitCaptureQuote ("Cannot find module ".data ++ [quoteC]) quoteC) output.data
  let deps1 := caps1.foldl
    (fun acc m =>
      let name := m.asString
      if is_node_core_module name then acc else acc ++ [mkNodeDep name]) []
  let caps2 := scanAll
    (matchLitCaptureQuote ("Can".data ++ [quoteC] ++ "t resolve ".data ++ [quoteC]) quoteC)
    output.data
  let deps := caps2.foldl
    (fun acc m =>
      let name := m.asString
      if is_node_core_module name || acc.any (fun d => d.package = name) then acc
      else acc ++ [mkNodeDep name]) deps1
  noneIfEmpty deps

/-- Ruby classifier: the cannot-load-such-file pattern, the gem name a
run of characters that are neither whitespace nor an opening paren. -/
def parse_ruby_error (output : String) : Option (List MissingDependency) :=
  let caps := scanAll
    (matchLitCaptureRun "cannot load such file -- ".data
      (fun c => !(rustIsSpace c) && !(c = Char.ofNat 40))) output.data
  let deps := caps.map (fun m =>
    (⟨"ruby", m.asString, "gem", ["install", m.asString]⟩ : MissingDependency))
  noneIfEmpty deps

/-- Build a Go dependency entry. -/
def mkGoDep (package : String) : MissingDependency :=
  ⟨"go", package, "go", ["get", package]⟩

/-- Entries produced by the first Go pattern loop (not-in-GOROOT), in
match order, pushed without deduplication. -/
def goDeps1 (output : String) : List MissingDependency :=
  (scanAll (matchLitCaptureRunLit "package ".data (fun c => !(rustIsSpace c))
      " is not in".data) output.data).map (fun m => mkGoDep m.asString)

/-- Entries the second Go pattern loop (no-required-module-provides)
offers to the dedup guard, in match order, before deduplication. -/
def goDeps2 (output : String) : List MissingDependency :=
  (scanAll (matchLitCaptureRun "no required module provides package ".data
      (fun c => !(rustIsSpace c) && !(c = Char.ofNat 59))) output.data).map
    (fun m => mkGoDep m.asString)

/-- Go classifier: the not-in-GOROOT pattern and the
no-required-module-provides-package pattern, the second deduplicated. -/
def parse_go_error (output : String) : Option (List MissingDependency) :=
  noneIfEmpty (pass2 (goDeps2 output) (goDeps1 output))

/-- Rust classifier: the unresolved-import pattern, backtick-delimited;
the crate is the first double-colon segment of the capture. -/
def parse_rust_error (output : String) : Option (List MissingDependency) :=
  let caps := scanAll
    (matchLitCaptureQuote ("unresolved import ".data ++ [backtickC]) backtickC)
    output.data
  let deps := caps.map (fun m =>
    let name := ((splitOnS "::" m.asString).headD m.asString)
    (⟨"rust", name, "cargo", ["add", name]⟩ : MissingDependency))
  noneIfEmpty deps

/-- Java classifier: the package-does-not-exist pattern, the package a
run of lowercase letters and dots, mapped to a Maven coordinate. -/
def parse_java_error (output : String) : Option (List MissingDependency) :=
  let caps := scanAll
    (matchLitCaptureRunLit "package ".data
      (fun c => (Char.ofNat 97 ≤ c && c ≤ Char.ofNat 122) || c = Char.ofNat 46)
      " does not exist".data) output.data
  let deps := caps.map (fun m =>
    let maven := java_package_to_maven m.asString
    (⟨"java", maven, "maven", ["dependency:get", "-Dartifact=" ++ maven]⟩ :
      MissingDependency))
  noneIfEmpty deps

/-- PHP classifier: the class-not-found pattern, quote-delimited, mapped
to a Composer package. -/
def parse_php_error (output : String) : Option (List MissingDependency) :=
  let caps := scanAll
    (matchLitCaptureRunLit ("Class ".data ++ [quoteC]) (fun c => !(c = quoteC))
      ([quoteC] ++ " not found".data)) output.data
  let deps := caps.map (fun m =>
    let package := php_class_to_package m.asString
    (⟨"php", package, "composer", ["require", package]⟩ : MissingDependency))
  noneIfEmpty deps

/-- Slash to double-colon conversion of a Perl module path. -/
def perlModuleName (cap : String) : String :=
  joinSep "::" (splitOnS "/" cap)

/-- Perl classifier: the cannot-locate pattern with a dot-pm-in trailer;
the greedy non-whitespace run must backtrack to leave the dot-pm
trailer, and the captured path converts slashes to double colons. -/
def parse_perl_error (output : String) : Option (List MissingDependency) :=
  let caps := scanAll
    (matchLitCaptureBacktrack ("Can".data ++ [quoteC] ++ "t locate ".data)
      (fun c => !(rustIsSpace c)) ".pm in".data) output.data
  let deps := caps.map (fun m =>
    let name := perlModuleName m.asString
    (⟨"perl", name, "cpan", ["install", name]⟩ : MissingDependency))
  noneIfEmpty deps

/-- Language dispatch of the dependency detector, from
src/executor/dependency_detector.rs; the stdout argument is ignored by
the Rust code as well. -/
def parse_error (language : String) (stderr : String) (_stdout : String) :
    Option (List MissingDependency) :=
  if language = "python" then parse_python_error stderr
  else if language = "node" ∨ language = "nodejs" then parse_node_error stderr
  else if language = "ruby" then parse_ruby_error stderr
  else if language = "go" then parse_go_error stderr
  else if language = "rust" then parse_rust_error stderr
  else if language = "java" then parse_java_error stderr
  else if language = "php" then parse_php_error stderr
  else if language = "perl" then parse_perl_error stderr
  else none

/-!  Self-healing execution loop of CodeExecutor::execute
(src/executor/code/executor.rs, lines 42-129).  The runtime and the
isolated environment are resolved before the loop and are orthogonal to
the loop state; the two effectful operations are oracles:

* `runErr n` — outcome of execution attempt number `n`: `none` on
  success, `some e` with the formatted error text on failure;
* `installOk k` — whether the k-th install submission of the call (in
  submission order, starting at 0) succeeds.

The loop state mirrors the local variables of `execute`; `subCount` and
`log` instrument the submissions handed to the package manager. -/

/-- Oracles for one execute call. -/
structure ExecTrace where
  runErr : Nat → Option String
  installOk : Nat → Bool

/-- Local state of one execute call. -/
structure LoopState where
  installed : List String
  attempt : Nat
  lastErrorPackage : Option String
  stuckCount : Nat
  subCount : Nat
  log : List (String × Bool)
deriving Repr, DecidableEq

/-- Initial loop state: empty install set, zero counters. -/
def initLoopState : LoopState := ⟨[], 0, none, 0, 0, []⟩

/-- Per-dependency processing of one classification pass: the stuck
check against the last failing package (abort with the original error at
threshold 2), the skip of already-installed packages, and the install
submission recording the package on success.  Returns an early-return
value when the stuck threshold aborts, the updated state, and the
any-new flag. -/
def processDeps (tr : ExecTrace) (e : String) :
    List MissingDependency → LoopState → Bool →
    Option (Except String Unit) × LoopState × Bool
  | [], s, anyNew => (none, s, anyNew)
  | dep :: rest, s, anyNew =>
    let stuck2 : Nat :=
      match s.lastErrorPackage with
      | some lastPkg => if lastPkg = dep.package then s.stuckCount + 1 else 0
      | none => s.stuckCount
    let abort : Bool :=
      match s.lastErrorPackage with
      | some lastPkg => lastPkg = dep.package && 2 ≤ stuck2
      | none => false
    if abort then (some (Except.error e), { s with stuckCount := stuck2 }, anyNew)
    else
      let s1 := { s with stuckCount := stuck2, lastErrorPackage := some dep.package }
      if dep.package ∈ s1.installed then processDeps tr e rest s1 anyNew
      else
        let ok := tr.installOk s1.subCount
        let s2 := { s1 with
          subCount := s1.subCount + 1,
          log := s1.log ++ [(dep.package, ok)],
          installed := if ok then s1.installed.insert dep.package else s1.installed }
        processDeps tr e rest s2 true

/-- One-or-more iterations of the retry loop, fuel-indexed; `none` means
the fuel ran out before the loop returned.  Each iteration increments the
attempt counter, runs the attempt, returns on success, classifies the
failure text (propagating it unchanged when unclassified), processes the
detected dependencies, and applies the no-new-progress stuck rule before
retrying. -/
def execLoopAux (tr : ExecTrace) (language : String) :
    Nat → LoopState → Option (Except String Unit × LoopState)
  | 0, _ => none
  | fuel + 1, s0 =>
    let s := { s0 with attempt := s0.attempt + 1 }
    match tr.runErr s.attempt with
    | none => some (Except.ok (), s)
    | some e =>
      match parse_error language e "" with
      | none => some (Except.error e, s)
      | some deps =>
        match processDeps tr e deps s false with
        | (some r, s1, _) => some (r, s1)
        | (none, s1, anyNew) =>
          if anyNew then execLoopAux tr language fuel s1
          else
            let s2 := { s1 with stuckCount := s1.stuckCount + 1 }
            if 2 ≤ s2.stuckCount then some (Except.error e, s2)
            else execLoopAux tr language fuel s2

/-- The self-healing loop of one execute call, from the initial state. -/
def executeModel (tr : ExecTrace) (language : String) (fuel : Nat) :
    Option (Except String Unit × LoopState) :=
  execLoopAux tr language fuel initLoopState

/-!  RuntimeDownloader::download
(src/runtime/downloader/downloader.rs).  The SHA-256 digest is
abstracted as an oracle hash function on file contents; the cache
directory is a partial map from filename to contents, and the network a
single oracle result for the requested URL.  The instrumentation records
how many network GETs were performed and which files were deleted, in
order. -/

/-- Failure modes of a download call. -/
inductive DlError where
  | network
  | checksumMismatch
deriving Repr, DecidableEq

/-- Environment of one download call. -/
structure DlEnv where
  hashFn : String → String
  cache : String → Option String
  fetchResult : Option String

deriving instance DecidableEq for Except

/-- Result of a download call with its observable I/O events. -/
structure DlResult where
  result : Except DlError String
  gets : Nat
  deleted : List String
deriving Repr, DecidableEq

/-- Checksum gate: an empty expected hash accepts anything, otherwise
the hash of the contents must equal the expected hex digest. -/
def verify_checksum (env : DlEnv) (contents : String) (expected : String) : Bool :=
  if expected = "" then true else env.hashFn contents = expected

/-- Cache filename derivation: the final slash-separated segment of the
URL. -/
def cacheFilename (url : String) : String :=
  (splitOnS "/" url).getLastD ""

/-- The fresh-download tail of the call: one GET, write the payload to
the destination, then the checksum gate; on mismatch the fresh file is
deleted and the call fails. -/
def doFetch (env : DlEnv) (dest : String) (expected : String)
    (dels : List String) : DlResult :=
  match env.fetchResult with
  | none => ⟨Except.error DlError.network, 1, dels⟩
  | some contents =>
    if verify_checksum env contents expected then ⟨Except.ok dest, 1, dels⟩
    else ⟨Except.error DlError.checksumMismatch, 1, dels ++ [dest]⟩

/-- The download call: a same-named cached file passing the checksum
gate is returned with no GET; a failing cached file is deleted and the
call falls through to the single fresh download. -/
def download (env : DlEnv) (url : String) (expected : String) : DlResult :=
  let filename := cacheFilename url
  let dest := "cache/" ++ filename
  match env.cache filename with
  | some contents =>
    if verify_checksum env contents expected then ⟨Except.ok dest, 0, []⟩
    else doFetch env dest expected [dest]
  | none => doFetch env dest expected []

/-!  RuntimeManager (src/runtime/manager/manager.rs) and the registry
types (src/language/registry/registry.rs).  Paths are segment lists;
the registry, platform detection, downloader, installer, file existence
and the version probe are oracles in a `MgrEnv`; the installed-runtime
index is an association list with the usual insert-shadows semantics of
the HashMap. -/

/-- A filesystem path as a list of segments. -/
abbrev FilePath2 := List String

/-- Download descriptor of the registry. -/
structure DownloadInfo where
  url : String
  sha256 : String
deriving Repr, DecidableEq

/-- Package-manager descriptor of the registry. -/
structure PackageManager where
  name : String
  executable : String
  install_cmd : List String
deriving Repr, DecidableEq

/-- Language definition of the registry. -/
structure LanguageDefinition where
  name : String
  version : String
  executable : String
  package_manager : Option PackageManager
  downloads : List (String × DownloadInfo)
deriving Repr, DecidableEq

/-- Installed-runtime record. -/
structure RuntimeInfo where
  language : String
  version : String
  path : FilePath2
  executable : FilePath2
deriving Repr, DecidableEq

/-- Failure taxonomy of runtime acquisition. -/
inductive MgrError where
  | languageNotFound
  | platformUnsupported
  | downloadFailure
  | installFailure
  | executableNotFound
  | verificationFailure
deriving Repr, DecidableEq

/-- Environment of the runtime manager: oracles for every collaborator. -/
structure MgrEnv where
  registry : String → Option LanguageDefinition
  platform : String
  basePath : FilePath2
  downloadResult : String → String → Except MgrError FilePath2
  installResult : FilePath2 → FilePath2 → Except MgrError Unit
  pathExists : FilePath2 → Bool
  runsOk : FilePath2 → Bool
  windows : Bool
  runtimeDirs : List String

/-- The installed-runtime index. -/
structure MgrState where
  index : List (String × RuntimeInfo)
deriving Repr, DecidableEq

/-- Ordered candidate locations of the runtime executable; the exe
variants exist only on Windows builds. -/
def exeCandidates (env : MgrEnv) (runtimeDir : FilePath2) (exeName : String) :
    List FilePath2 :=
  [runtimeDir ++ ["bin", exeName], runtimeDir ++ [exeName]] ++
  (if env.windows then
    [runtimeDir ++ ["bin", exeName ++ ".exe"], runtimeDir ++ [exeName ++ ".exe"]]
  else [])

/-- Resolve the executable by the first existing candidate. -/
def find_executable (env : MgrEnv) (runtimeDir : FilePath2) (exeName : String) :
    Except MgrError FilePath2 :=
  match (exeCandidates env runtimeDir exeName).find? env.pathExists with
  | some c => Except.ok c
  | none => Except.error MgrError.executableNotFound

/-- Runnability probe: run the executable with a version flag and demand
success. -/
def verify_runtime (env : MgrEnv) (executable : FilePath2) : Except MgrError Unit :=
  if env.runsOk executable then Except.ok () else Except.error MgrError.verificationFailure

/-- Install pipeline for a language not yet indexed: registry lookup,
platform download info, download, install into the version-qualified
directory, executable resolution, probe, then index insertion.  The
third component counts the I/O operations performed (download, install,
probe). -/
def install_runtime (env : MgrEnv) (s : MgrState) (language : String) :
    Except MgrError RuntimeInfo × MgrState × Nat :=
  match env.registry language with
  | none => (Except.error MgrError.languageNotFound, s, 0)
  | some langDef =>
    match (langDef.downloads.lookup env.platform) with
    | none => (Except.error MgrError.platformUnsupported, s, 0)
    | some dl =>
      match env.downloadResult dl.url dl.sha256 with
      | Except.error err => (Except.error err, s, 1)
      | Except.ok archive =>
        let runtimeDir := env.basePath ++
          ["runtimes", language ++ "-" ++ langDef.version]
        match env.installResult archive runtimeDir with
        | Except.error err => (Except.error err, s, 2)
        | Except.ok _ =>
          match find_executable env runtimeDir langDef.executable with
          | Except.error err => (Except.error err, s, 2)
          | Except.ok exe =>
            match verify_runtime env exe with
            | Except.error err => (Except.error err, s, 3)
            | Except.ok _ =>
              let info : RuntimeInfo :=
                ⟨language, langDef.version, runtimeDir, exe⟩
              (Except.ok info, ⟨(language, info) :: s.index⟩, 3)

/-- Entry point: an indexed language returns its record immediately with
no I/O; otherwise the install pipeline runs. -/
def ensure_runtime (env : MgrEnv) (s : MgrState) (language : String) :
    Except MgrError RuntimeInfo × MgrState × Nat :=
  match s.index.lookup language with
  | some info => (Except.ok info, s, 0)
  | none => install_runtime env s language

/-- Parse one runtimes-root subdirectory into a runtime record: split
the name at the first hyphen into language and version, resolve the
executable through the same candidate list, and skip (none) on any
failure.  No runnability probe runs here. -/
def parse_runtime_dir (env : MgrEnv) (path : FilePath2) : Option RuntimeInfo :=
  let name := path.getLastD ""
  match splitOnS "-" name with
  | [] => none
  | [_] => none
  | lang :: rest =>
    let version := joinSep "-" rest
    match env.registry lang with
    | none => none
    | some langDef =>
      match find_executable env path langDef.executable with
      | Except.error _ => none
      | Except.ok exe => some ⟨lang, version, path, exe⟩

/-- Startup scan: fold the runtimes-root subdirectories into an index,
silently skipping entries that do not parse. -/
def scan_installed (env : MgrEnv) : MgrState :=
  ⟨env.runtimeDirs.foldl
    (fun idx nm =>
      match parse_runtime_dir env (env.basePath ++ ["runtimes", nm]) with
      | some info => (info.language, info) :: idx
      | none => idx) []⟩

/-- The compiled-in language registry (src/language/registry/registry.rs,
the Default instance), as a lookup function; the package managers and
download tables are embedded verbatim. -/
def defaultRegistry (name : String) : Option LanguageDefinition :=
  if name = "python" then some
    ⟨"Python", "3.11.6", "python", some ⟨"pip", "pip", ["install"]⟩,
     [("linux-x86_64", ⟨"https://github.com/indygreg/python-build-standalone/releases/download/20231002/cpython-3.11.6+20231002-x86_64-unknown-linux-gnu-install_only.tar.gz", ""⟩),
      ("windows-x86_64", ⟨"https://github.com/indygreg/python-build-standalone/releases/download/20231002/cpython-3.11.6+20231002-x86_64-pc-windows-msvc-install_only.tar.gz", ""⟩),
      ("darwin-x86_64", ⟨"https://github.com/indygreg/python-build-standalone/releases/download/20231002/cpython-3.11.6+20231002-x86_64-apple-darwin-install_only.tar.gz", ""⟩)]⟩
  else if name = "node" then some
    ⟨"Node.js", "20.10.0", "node", some ⟨"npm", "npm", ["install", "-g"]⟩,
     [("linux-x86_64", ⟨"https://nodejs.org/dist/v20.10.0/node-v20.10.0-linux-x64.tar.xz", ""⟩),
      ("windows-x86_64", ⟨"https://nodejs.org/dist/v20.10.0/node-v20.10.0-win-x64.zip", ""⟩),
      ("darwin-x86_64", ⟨"https://nodejs.org/dist/v20.10.0/node-v20.10.0-darwin-x64.tar.gz", ""⟩)]⟩
  else if name = "go" then some
    ⟨"Go", "1.21.5", "go", some ⟨"go", "go", ["install"]⟩,
     [("linux-x86_64", ⟨"https://go.dev/dl/go1.21.5.linux-amd64.tar.gz", ""⟩),
      ("windows-x86_64", ⟨"https://go.dev/dl/go1.21.5.windows-amd64.zip", ""⟩),
      ("darwin-x86_64", ⟨"https://go.dev/dl/go1.21.5.darwin-amd64.tar.gz", ""⟩)]⟩
  else if name = "rust" then some
    ⟨"Rust", "1.75.0", "rustc", some ⟨"cargo", "cargo", ["install"]⟩,
     [("linux-x86_64", ⟨"https://static.rust-lang.org/dist/rust-1.75.0-x86_64-unknown-linux-gnu.tar.gz", ""⟩),
      ("windows-x86_64", ⟨"https://static.rust-lang.org/dist/rust-1.75.0-x86_64-pc-windows-msvc.tar.gz", ""⟩),
      ("darwin-x86_64", ⟨"https://static.rust-lang.org/dist/rust-1.75.0-x86_64-apple-darwin.tar.gz", ""⟩)]⟩
  else if name = "ruby" then some
    ⟨"Ruby", "3.2.2", "ruby", some ⟨"gem", "gem", ["install"]⟩,
     [("linux-x86_64", ⟨"https://cache.ruby-lang.org/pub/ruby/3.2/ruby-3.2.2.tar.gz", ""⟩),
      ("windows-x86_64", ⟨"https://github.com/oneclick/rubyinstaller2/releases/download/RubyInstaller-3.2.2-1/rubyinstaller-3.2.2-1-x64.7z", ""⟩),
      ("darwin-x86_64", ⟨"https://cache.ruby-lang.org/pub/ruby/3.2/ruby-3.2.2.tar.gz", ""⟩)]⟩
  else none

/-!  Specification predicates and concrete instances used by the
statements below. -/

/-- No package is submitted for installation again after a submission of
it succeeded: wherever a log entry records a successful install, no
later entry names the same package. -/
def noResubAfterSuccess : List (String × Bool) → Prop
  | [] => True
  | q :: rest => (q.2 = true → ∀ p ∈ rest, p.1 ≠ q.1) ∧ noResubAfterSuccess rest

/-- Loop-state invariant: every package with a successful submission in
the log is recorded as installed, and the log never resubmits a package
after a successful submission of it. -/
def GoodState (s : LoopState) : Prop :=
  (∀ p, (p, true) ∈ s.log → p ∈ s.installed) ∧ noResubAfterSuccess s.log

/-- A module-not-found error text for the package named foo. -/
def msgFoo : String :=
  "ModuleNotFoundError: No module named " ++ sq ++ "foo" ++ sq

/-- Error text with the same missing module reported twice. -/
def dupInput : String :=
  "ModuleNotFoundError: No module named " ++ sq ++ "abc" ++ sq ++
  String.mk [newlineC] ++
  "ModuleNotFoundError: No module named " ++ sq ++ "abc" ++ sq

/-- Error text firing both Python patterns on distinct modules. -/
def twoPatternInput : String :=
  "ModuleNotFoundError: No module named " ++ sq ++ "abc" ++ sq ++
  String.mk [newlineC] ++
  "ImportError: cannot import name " ++ sq ++ "f" ++ sq ++
  " from " ++ sq ++ "xyz" ++ sq

/-- Trace where every attempt fails on the missing module foo and every
install submission fails. -/
def trC2 : ExecTrace := ⟨fun _ => some msgFoo, fun _ => false⟩

/-- Trace where the first attempt fails on foo, the install succeeds and
the second attempt succeeds. -/
def trRecover : ExecTrace :=
  ⟨fun n => if n = 1 then some msgFoo else none, fun _ => true⟩

/-- Trace whose failure text matches no classifier pattern. -/
def trBoom : ExecTrace := ⟨fun _ => some "boom", fun _ => false⟩

/-- Download environment with an intact cached archive. -/
def envCachedGood : DlEnv :=
  ⟨id, fun f => if f = "a.tar.gz" then some "good" else none, some "fresh"⟩

/-- Download environment where both the cached archive and the fresh
payload fail the checksum gate (the digest oracle is the identity). -/
def envCachedBad : DlEnv :=
  ⟨id, fun f => if f = "a.tar.gz" then some "bad" else none, some "alsobad"⟩

/-- Download environment where the cached archive fails the checksum
gate but the fresh payload passes it. -/
def envCachedRepair : DlEnv :=
  ⟨id, fun f => if f = "a.tar.gz" then some "bad" else none, some "good"⟩

/-- Executable path of the scan-seeded Python runtime instance. -/
def exeC1 : FilePath2 :=
  ["home", ".piebash", "runtimes", "python-3.11.6", "bin", "python"]

/-- Manager environment whose runtimes root holds a Python directory
whose executable exists on disk but fails the version probe. -/
def envScanStale : MgrEnv :=
  ⟨defaultRegistry, "linux-x86_64", ["home", ".piebash"],
   fun _ _ => Except.error MgrError.downloadFailure,
   fun _ _ => Except.error MgrError.installFailure,
   fun p => p == exeC1, fun _ => false, false, ["python-3.11.6"]⟩

/-- The runtime record the startup scan seeds in `envScanStale`. -/
def infoC1 : RuntimeInfo :=
  ⟨"python", "3.11.6", ["home", ".piebash", "runtimes", "python-3.11.6"], exeC1⟩

/-- Manager environment where every collaborator succeeds. -/
def envAllOk : MgrEnv :=
  ⟨defaultRegistry, "linux-x86_64", ["home", ".piebash"],
   fun _ _ => Except.ok ["cache", "x.tar.gz"],
   fun _ _ => Except.ok (), fun _ => true, fun _ => true, false, []⟩

/-- An already-indexed Python runtime record. -/
def infoW : RuntimeInfo :=
  ⟨"python", "3.11.6", ["home", ".piebash", "runtimes", "python-3.11.6"],
   exeC1⟩

/-- Manager state whose index already holds Python. -/
def sIndexed : MgrState := ⟨[("python", infoW)]⟩

/-!  Theorems. -/

/-- The shared final step never wraps the empty list. -/
theorem noneIfEmpty_some {deps l : List MissingDependency}
    (h : noneIfEmpty deps = some l) : l ≠ [] := by
  unfold noneIfEmpty at h
  split at h
  · exact absurd h (by simp)
  · cases h; assumption

/-- The shared final step returns exactly its input list. -/
theorem noneIfEmpty_eq {deps l : List MissingDependency}
    (h : noneIfEmpty deps = some l) : l = deps := by
  unfold noneIfEmpty at h
  split at h
  · exact absurd h (by simp)
  · cases h; rfl

/-- Elements of a guarded left fold satisfy a predicate preserved by the
step function. -/
theorem foldl_guard {β : Type} {P : MissingDependency → Prop}
    {f : List MissingDependency → β → List MissingDependency}
    (hf : ∀ acc b, (∀ x ∈ acc, P x) → ∀ x ∈ f acc b, P x) :
    ∀ (l : List β) (acc : List MissingDependency),
      (∀ x ∈ acc, P x) → ∀ x ∈ List.foldl f acc l, P x := by
  intro l
  induction l with
  | nil => intro acc hacc; simpa using hacc
  | cons b bs ih => intro acc hacc; exact ih (f acc b) (hf acc b hacc)

/-- C10: for every language and error text, parse_error returns either
none or a non-empty list, and every language outside the eight handled
ecosystems (with the two spellings of Node) yields none. -/
theorem parse_error_none_or_nonempty :
    ∀ (lang stderr stdout : String),
      (∀ l, parse_error lang stderr stdout = some l → l ≠ []) ∧
      (lang ∉ (["python", "node", "nodejs", "ruby", "go", "rust",
                "java", "php", "perl"] : List String) →
        parse_error lang stderr stdout = none) := by
  intro lang stderr stdout
  constructor
  · intro l h
    unfold parse_error at h
    split_ifs at h <;> exact noneIfEmpty_some h
  · intro hmem
    simp only [List.mem_cons, List.not_mem_nil, or_false, not_or] at hmem
    obtain ⟨h1, h2, h3, h4, h5, h6, h7, h8, h9⟩ := hmem
    unfold parse_error
    rw [if_neg h1, if_neg (by tauto), if_neg h4, if_neg h5, if_neg h6,
        if_neg h7, if_neg h8, if_neg h9]

/-- C10 witness: an unhandled language yields none. -/
theorem parse_error_none_or_nonempty_witness :
    parse_error "haskell" "whatever" "" = none :=
  (parse_error_none_or_nonempty "haskell" "whatever" "").2 (by decide)

/-- C9: no Node dependency ever carries a core-module name, and the
concrete cannot-find-module error naming fs yields no dependency. -/
theorem node_core_modules_excluded :
    (∀ (out : String) (l : List MissingDependency) (d : MissingDependency),
        parse_node_error out = some l → d ∈ l →
        is_node_core_module d.package = false) ∧
    parse_error "node" ("Error: Cannot find module " ++ sq ++ "fs" ++ sq) ""
      = none := by
  constructor
  · intro out l d h hd
    have hl := noneIfEmpty_eq h
    subst hl
    refine foldl_guard (P := fun d => is_node_core_module d.package = false)
      ?hf2 _ _ (foldl_guard ?hf1 _ [] (by simp)) d hd
    · intro acc b hacc x hx
      dsimp only at hx
      by_cases hc :
        (is_node_core_module b.asString ||
          acc.any (fun d => decide (d.package = b.asString))) = true
      · rw [if_pos hc] at hx
        exact hacc x hx
      · rw [if_neg hc] at hx
        rcases List.mem_append.mp hx with hx | hx
        · exact hacc x hx
        · simp only [List.mem_singleton] at hx
          subst hx
          simp only [Bool.or_eq_true, not_or] at hc
          simpa [mkNodeDep] using Bool.eq_false_iff.mpr hc.1
    · intro acc b hacc x hx
      dsimp only at hx
      by_cases hc : is_node_core_module b.asString = true
      · rw [if_pos hc] at hx
        exact hacc x hx
      · rw [if_neg hc] at hx
        rcases List.mem_append.mp hx with hx | hx
        · exact hacc x hx
        · simp only [List.mem_singleton] at hx
          subst hx
          simpa [mkNodeDep] using Bool.eq_false_iff.mpr hc
  · decide

/-- C9 witness: a non-core module is detected and its package name is
outside the core list. -/
theorem node_core_modules_excluded_witness :
    is_node_core_module (mkNodeDep "express").package = false :=
  node_core_modules_excluded.1
    ("Error: Cannot find module " ++ sq ++ "express" ++ sq)
    [mkNodeDep "express"] (mkNodeDep "express") (by decide) (by decide)

/-- C5 counterexample: an error text repeating the same missing module
makes one parse_error call return two entries with the same normalized
package name, so deduplication by normalized name does not hold across
the whole returned list. -/
theorem duplicate_packages_in_one_parse :
    parse_error "python" dupInput ""
      = some [mkPythonDep "abc", mkPythonDep "abc"] ∧
    ¬ (List.Pairwise (fun a b => a.package ≠ b.package)
        [mkPythonDep "abc", mkPythonDep "abc"]) := by
  constructor
  · decide
  · intro h
    cases h with
    | cons h1 _ => exact h1 (mkPythonDep "abc") (by simp) rfl

/-- Decomposition of the deduplicating second-pattern fold: the
accumulated list is extended by a tail whose entries have package names
pairwise distinct and distinct from every earlier entry. -/
theorem pass2_decomp :
    ∀ (ds init : List MissingDependency),
      ∃ tail, pass2 ds init = init ++ tail ∧
        (∀ d ∈ tail, d ∈ ds) ∧
        (∀ d ∈ tail, ∀ e ∈ init, d.package ≠ e.package) ∧
        tail.Pairwise (fun a b => a.package ≠ b.package) := by
  intro ds
  induction ds with
  | nil =>
    intro init
    exact ⟨[], by simp [pass2], by simp, by simp, by simp⟩
  | cons d ds ih =>
    intro init
    have hstep : pass2 (d :: ds) init = pass2 ds (pushIfNewPackage d init) := by
      simp [pass2]
    by_cases hc : (init.any (fun x => decide (x.package = d.package))) = true
    · have hpush : pushIfNewPackage d init = init := by
        simp [pushIfNewPackage, hc]
      rw [hstep, hpush]
      obtain ⟨tail, heq, hsub, hfresh, hpw⟩ := ih init
      exact ⟨tail, heq, fun x hx => List.mem_cons_of_mem d (hsub x hx),
        hfresh, hpw⟩
    · have hpush : pushIfNewPackage d init = init ++ [d] := by
        simp only [pushIfNewPackage]
        rw [if_neg hc]
      have hfreshd : ∀ e ∈ init, d.package ≠ e.package := by
        intro e he heq
        exact hc (List.any_eq_true.mpr ⟨e, he, by simp [heq.symm]⟩)
      rw [hstep, hpush]
      obtain ⟨tail, heq, hsub, hfresh, hpw⟩ := ih (init ++ [d])
      refine ⟨d :: tail, by rw [heq]; simp, ?_, ?_, ?_⟩
      · intro x hx
        rcases List.mem_cons.mp hx with hx | hx
        · exact List.mem_cons.mpr (Or.inl hx)
        · exact List.mem_cons_of_mem d (hsub x hx)
      · intro x hx e he
        rcases List.mem_cons.mp hx with hx | hx
        · subst hx; exact hfreshd e he
        · exact hfresh x hx e (List.mem_append_left _ he)
      · refine List.Pairwise.cons ?_ hpw
        intro b hb
        exact fun heq2 =>
          hfresh b hb d (List.mem_append_right _ (by simp)) (heq2.symm)

/-- C5 amended: a Python or Go parse result is exactly the first-pattern
entries, in match order and with no deduplication among them, followed
by a tail drawn from the second-pattern entries whose package names are
pairwise distinct and distinct from every first-pattern entry — the
dedup guard protects only the second pattern against the accumulated
list (repeated matches of one pattern duplicate, as the counterexample
shows). -/
theorem second_pattern_dedup :
    (∀ (out : String) (l : List MissingDependency),
        parse_python_error out = some l →
        ∃ tail, l = pythonDeps1 out ++ tail ∧
          (∀ d ∈ tail, d ∈ pythonDeps2 out) ∧
          (∀ d ∈ tail, ∀ e ∈ pythonDeps1 out, d.package ≠ e.package) ∧
          tail.Pairwise (fun a b => a.package ≠ b.package)) ∧
    (∀ (out : String) (l : List MissingDependency),
        parse_go_error out = some l →
        ∃ tail, l = goDeps1 out ++ tail ∧
          (∀ d ∈ tail, d ∈ goDeps2 out) ∧
          (∀ d ∈ tail, ∀ e ∈ goDeps1 out, d.package ≠ e.package) ∧
          tail.Pairwise (fun a b => a.package ≠ b.package)) := by
  constructor
  · intro out l h
    have hl := noneIfEmpty_eq h
    obtain ⟨tail, heq, hsub, hfresh, hpw⟩ :=
      pass2_decomp (pythonDeps2 out) (pythonDeps1 out)
    exact ⟨tail, by rw [hl]; exact heq, hsub, hfresh, hpw⟩
  · intro out l h
    have hl := noneIfEmpty_eq h
    obtain ⟨tail, heq, hsub, hfresh, hpw⟩ :=
      pass2_decomp (goDeps2 out) (goDeps1 out)
    exact ⟨tail, by rw [hl]; exact heq, hsub, hfresh, hpw⟩

/-- C5 amended witness: on the concrete two-pattern input the result is
the first-pattern entry followed by a tail from the second-pattern
entries, deduplicated against the first. -/
theorem second_pattern_dedup_witness :
    ∃ tail, [mkPythonDep "abc", mkPythonDep "xyz"] =
        pythonDeps1 twoPatternInput ++ tail ∧
      (∀ d ∈ tail, d ∈ pythonDeps2 twoPatternInput) ∧
      (∀ d ∈ tail, ∀ e ∈ pythonDeps1 twoPatternInput, d.package ≠ e.package) ∧
      tail.Pairwise (fun a b => a.package ≠ b.package) :=
  second_pattern_dedup.1 twoPatternInput
    [mkPythonDep "abc", mkPythonDep "xyz"] (by decide)

/-- C8: a cached file with the derived name that passes the checksum
gate (matching digest, or an empty expected checksum) is returned
immediately: zero network GETs and no deletion. -/
theorem cached_hit_no_network :
    ∀ (env : DlEnv) (url expected c : String),
      env.cache (cacheFilename url) = some c →
      verify_checksum env c expected = true →
      download env url expected =
        ⟨Except.ok ("cache/" ++ cacheFilename url), 0, []⟩ := by
  intro env url expected c hc hv
  unfold download
  simp only [hc, hv, if_true]

/-- C8 witness: the intact-cache environment returns the cached path
with no network GET; both the matching-digest and the empty-checksum
configuration are covered. -/
theorem cached_hit_no_network_witness :
    download envCachedGood "https://x/a.tar.gz" "good" =
      ⟨Except.ok "cache/a.tar.gz", 0, []⟩ ∧
    download envCachedGood "https://x/a.tar.gz" "" =
      ⟨Except.ok "cache/a.tar.gz", 0, []⟩ :=
  ⟨cached_hit_no_network envCachedGood "https://x/a.tar.gz" "good" "good"
      (by decide) (by decide),
   cached_hit_no_network envCachedGood "https://x/a.tar.gz" "" "good"
      (by decide) (by decide)⟩

/-- C4: with a non-empty expected checksum, a cached file failing the
gate is deleted and exactly one re-download happens.  When the fresh
payload passes the gate the call returns its path — one GET, only the
cached file deleted; when the fresh payload also fails the gate it is
deleted too and the call ends in the checksum-mismatch error — still
one GET, no further retry inside the call. -/
theorem checksum_repair_single_redownload :
    ∀ (env : DlEnv) (url expected c : String),
      expected ≠ "" →
      env.cache (cacheFilename url) = some c →
      ¬ env.hashFn c = expected →
      (∀ f, env.fetchResult = some f → env.hashFn f = expected →
        download env url expected =
          ⟨Except.ok ("cache/" ++ cacheFilename url), 1,
           ["cache/" ++ cacheFilename url]⟩) ∧
      (∀ f, env.fetchResult = some f → ¬ env.hashFn f = expected →
        download env url expected =
          ⟨Except.error DlError.checksumMismatch, 1,
           ["cache/" ++ cacheFilename url, "cache/" ++ cacheFilename url]⟩) := by
  intro env url expected c hexp hc hhc
  constructor
  · intro f hf hvf
    unfold download doFetch
    simp only [hc, hf]
    rw [if_neg (by simp [verify_checksum, hexp, hhc]),
        if_pos (by simp [verify_checksum, hexp, hvf])]
  · intro f hf hhf
    unfold download doFetch
    simp only [hc, hf]
    rw [if_neg (by simp [verify_checksum, hexp, hhc]),
        if_neg (by simp [verify_checksum, hexp, hhf])]
    simp

/-- C4 witness: a corrupt cached archive with a passing fresh payload is
repaired by exactly one GET with only the cached file deleted, and one
with a failing fresh payload deletes both files and fails with the
checksum mismatch after the same single GET. -/
theorem checksum_repair_single_redownload_witness :
    download envCachedRepair "https://x/a.tar.gz" "good" =
      ⟨Except.ok "cache/a.tar.gz", 1, ["cache/a.tar.gz"]⟩ ∧
    download envCachedBad "https://x/a.tar.gz" "good" =
      ⟨Except.error DlError.checksumMismatch, 1,
       ["cache/a.tar.gz", "cache/a.tar.gz"]⟩ :=
  ⟨(checksum_repair_single_redownload envCachedRepair "https://x/a.tar.gz"
      "good" "bad" (by decide) (by decide) (by decide)).1 "good"
      (by decide) (by decide),
   (checksum_repair_single_redownload envCachedBad "https://x/a.tar.gz"
      "good" "bad" (by decide) (by decide) (by decide)).2 "alsobad"
      (by decide) (by decide)⟩

/-- C7: when the attempt of an iteration fails and the classifier finds
no pattern for the language and error text, the loop returns the
original failure text unchanged, and the final state differs from the
entry state only by the attempt increment: no install was submitted and
no retry was run. -/
theorem unclassified_error_propagates :
    ∀ (tr : ExecTrace) (language : String) (fuel : Nat) (s : LoopState)
      (e : String),
      tr.runErr (s.attempt + 1) = some e →
      parse_error language e "" = none →
      execLoopAux tr language (fuel + 1) s =
        some (Except.error e, { s with attempt := s.attempt + 1 }) := by
  intro tr language fuel s e hrun hparse
  unfold execLoopAux
  simp only [hrun, hparse]

/-- C7 witness: an unmatched failure text propagates from the first
attempt with no install and no retry. -/
theorem unclassified_error_propagates_witness :
    execLoopAux trBoom "python" 1 initLoopState =
      some (Except.error "boom", { initLoopState with attempt := 1 }) :=
  unclassified_error_propagates trBoom "python" 0 initLoopState "boom"
    (by decide) (by decide)

/-- C2 counterexample: when every attempt fails on the same package and
its install fails, the package is submitted to the package manager a
second time within the same call — the submission log of the finished
call names foo twice. -/
theorem package_resubmitted_after_failed_install :
    (executeModel trC2 "python" 5).map (fun r => r.2.log.map Prod.fst) =
      some ["foo", "foo"] := by
  decide

/-- Appending a submission of a package with no earlier successful
submission preserves the no-resubmission-after-success property. -/
theorem noResub_append {l : List (String × Bool)} {q : String × Bool}
    (hl : noResubAfterSuccess l)
    (hq : ∀ p, (p, true) ∈ l → q.1 ≠ p) :
    noResubAfterSuccess (l ++ [q]) := by
  induction l with
  | nil =>
    exact ⟨fun _ p hp => absurd hp (List.not_mem_nil p), trivial⟩
  | cons a l ih =>
    obtain ⟨ha, hl2⟩ := hl
    refine ⟨?_, ih hl2 (fun p hp => hq p (List.mem_cons_of_mem a hp))⟩
    intro hsucc p hp
    rcases List.mem_append.mp hp with h | h
    · exact ha hsucc p h
    · simp only [List.mem_singleton] at h
      subst h
      have hmem : (a.1, true) ∈ a :: l := by
        have hpair : a = (a.1, true) := by
          cases a
          simp only [Prod.mk.injEq, true_and]
          exact hsucc.symm ▸ rfl
        rw [← hpair]
        exact List.mem_cons_self a l
      exact hq a.1 hmem

/-- Dependency processing preserves the loop-state invariant. -/
theorem processDeps_inv :
    ∀ (tr : ExecTrace) (e : String) (deps : List MissingDependency)
      (s : LoopState) (anyNew : Bool),
      GoodState s → GoodState (processDeps tr e deps s anyNew).2.1 := by
  intro tr e deps
  induction deps with
  | nil => intro s anyNew h; simpa [processDeps] using h
  | cons dep rest ih =>
    intro s anyNew h
    unfold processDeps
    rcases hlast : s.lastErrorPackage with _ | lastPkg
    · simp only [hlast]
      by_cases hmem : dep.package ∈ s.installed
      · rw [if_pos hmem]
        exact ih _ anyNew h
      · rw [if_neg hmem]
        refine ih _ true ⟨?_, ?_⟩
        · intro p hp
          rcases List.mem_append.mp hp with hp | hp
          · have hp2 := h.1 p hp
            by_cases hok : tr.installOk s.subCount = true
            · simp only [hok, if_true]
              exact List.mem_insert_iff.mpr (Or.inr hp2)
            · simp only [Bool.not_eq_true] at hok
              simp only [hok, Bool.false_eq_true, if_false]
              exact hp2
          · simp only [List.mem_singleton, Prod.mk.injEq] at hp
            obtain ⟨hp1, hp2⟩ := hp
            subst hp1
            rw [← hp2]
            simp only [if_true]
            exact List.mem_insert_self _ _
        · refine noResub_append h.2 ?_
          intro p hp heq
          have heq2 : dep.package = p := heq
          exact hmem (heq2 ▸ h.1 p hp)
    · simp only [hlast]
      by_cases hsame : lastPkg = dep.package
      · simp only [hsame, if_pos rfl]
        by_cases habort : (2 ≤ s.stuckCount + 1)
        · rw [if_pos (by simp [decide_eq_true_eq, habort])]
          exact h
        · rw [if_neg (by simp [decide_eq_true_eq, habort])]
          by_cases hmem : dep.package ∈ s.installed
          · rw [if_pos hmem]
            exact ih _ anyNew h
          · rw [if_neg hmem]
            refine ih _ true ⟨?_, ?_⟩
            · intro p hp
              rcases List.mem_append.mp hp with hp | hp
              · have hp2 := h.1 p hp
                by_cases hok : tr.installOk s.subCount = true
                · simp only [hok, if_true]
                  exact List.mem_insert_iff.mpr (Or.inr hp2)
                · simp only [Bool.not_eq_true] at hok
                  simp only [hok, Bool.false_eq_true, if_false]
                  exact hp2
              · simp only [List.mem_singleton, Prod.mk.injEq] at hp
                obtain ⟨hp1, hp2⟩ := hp
                subst hp1
                rw [← hp2]
                simp only [if_true]
                exact List.mem_insert_self _ _
            · refine noResub_append h.2 ?_
              intro p hp heq
              have heq2 : dep.package = p := heq
              exact hmem (heq2 ▸ h.1 p hp)
      · rw [if_neg (by simp [hsame])]
        simp only [hsame, if_false]
        by_cases hmem : dep.package ∈ s.installed
        · rw [if_pos hmem]
          exact ih _ anyNew h
        · rw [if_neg hmem]
          refine ih _ true ⟨?_, ?_⟩
          · intro p hp
            rcases List.mem_append.mp hp with hp | hp
            · have hp2 := h.1 p hp
              by_cases hok : tr.installOk s.subCount = true
              · simp only [hok, if_true]
                exact List.mem_insert_iff.mpr (Or.inr hp2)
              · simp only [Bool.not_eq_true] at hok
                simp only [hok, Bool.false_eq_true, if_false]
                exact hp2
            · simp only [List.mem_singleton, Prod.mk.injEq] at hp
              obtain ⟨hp1, hp2⟩ := hp
              subst hp1
              rw [← hp2]
              simp only [if_true]
              exact List.mem_insert_self _ _
          · refine noResub_append h.2 ?_
            intro p hp heq
            have heq2 : dep.package = p := heq
            exact hmem (heq2 ▸ h.1 p hp)

/-- The retry loop preserves the loop-state invariant from entry to the
returned final state. -/
theorem execLoopAux_inv :
    ∀ (tr : ExecTrace) (language : String) (fuel : Nat) (s : LoopState)
      (r : Except String Unit) (s1 : LoopState),
      GoodState s →
      execLoopAux tr language fuel s = some (r, s1) → GoodState s1 := by
  intro tr language fuel
  induction fuel with
  | zero =>
    intro s r s1 h heq
    simp [execLoopAux] at heq
  | succ fuel ih =>
    intro s r s1 h heq
    unfold execLoopAux at heq
    rcases hrun : tr.runErr (s.attempt + 1) with _ | e
    · simp only [hrun, Option.some.injEq, Prod.mk.injEq] at heq
      obtain ⟨hr, hs⟩ := heq
      subst hs
      exact h
    · simp only [hrun] at heq
      rcases hparse : parse_error language e "" with _ | deps
      · simp only [hparse, Option.some.injEq, Prod.mk.injEq] at heq
        obtain ⟨hr, hs⟩ := heq
        subst hs
        exact h
      · simp only [hparse] at heq
        have hGpd : GoodState
            (processDeps tr e deps { s with attempt := s.attempt + 1 } false).2.1 :=
          processDeps_inv tr e deps _ false h
        rcases hpd : processDeps tr e deps { s with attempt := s.attempt + 1 } false
          with ⟨o, s2, b⟩
        rw [hpd] at heq hGpd
        rcases o with _ | rr
        · simp only at heq hGpd
          rcases b with _ | _
          · simp only [Bool.false_eq_true, if_false] at heq
            split at heq
            · simp only [Option.some.injEq, Prod.mk.injEq] at heq
              obtain ⟨hr, hs⟩ := heq
              subst hs
              exact hGpd
            · exact ih { s2 with stuckCount := s2.stuckCount + 1 } r s1 hGpd heq
          · simp only [if_true] at heq
            exact ih _ r s1 hGpd heq
        · simp only [Option.some.injEq, Prod.mk.injEq] at heq
          obtain ⟨hr, hs⟩ := heq
          subst hs
          exact hGpd

/-- C2 amended: no package is ever submitted for installation a second
time after a submission of it succeeded; only successful installs are
recorded in the dedup set, so a failed submission may be retried (the
counterexample shows a second submission after a failed one). -/
theorem no_resubmit_after_success :
    ∀ (tr : ExecTrace) (language : String) (fuel : Nat)
      (r : Except String Unit) (s : LoopState),
      executeModel tr language fuel = some (r, s) →
      noResubAfterSuccess s.log :=
  fun tr language fuel r s h =>
    (execLoopAux_inv tr language fuel initLoopState r s
      ⟨fun _p hp => absurd hp (List.not_mem_nil _), trivial⟩ h).2

/-- C2 amended witness: a call that installed foo successfully and then
succeeded has a log with no resubmission after the success. -/
theorem no_resubmit_after_success_witness :
    noResubAfterSuccess [("foo", true)] :=
  no_resubmit_after_success trRecover "python" 5 (Except.ok ())
    ⟨["foo"], 2, some "foo", 0, 1, [("foo", true)]⟩ (by decide)

/-- C3: when every attempt fails with the same error text and the
classifier always yields the same single dependency, the call returns
the original error after at most two install submissions, all of them
for that package; three iterations always suffice, whatever extra fuel
is available. -/
theorem stuck_loop_aborts :
    ∀ (tr : ExecTrace) (language e : String) (d : MissingDependency)
      (fuel : Nat),
      (∀ n, tr.runErr n = some e) →
      parse_error language e "" = some [d] →
      ∃ s : LoopState,
        executeModel tr language (fuel + 3) = some (Except.error e, s) ∧
        s.log.length ≤ 2 ∧
        (∀ q ∈ s.log, q.1 = d.package) := by
  intro tr language e d fuel hrun hparse
  unfold executeModel initLoopState
  cases hok0 : tr.installOk 0 with
  | true =>
    refine ⟨⟨[d.package], 2, some d.package, 2, 1, [(d.package, true)]⟩,
      ?_, by simp, by simp⟩
    rw [show fuel + 3 = (fuel + 2) + 1 from rfl]
    simp [execLoopAux, processDeps, hrun, hparse, hok0, List.insert]
  | false =>
    cases hok1 : tr.installOk 1 with
    | true =>
      refine ⟨⟨[d.package], 3, some d.package, 2, 2,
        [(d.package, false), (d.package, true)]⟩, ?_, by simp, by simp⟩
      rw [show fuel + 3 = (fuel + 2) + 1 from rfl]
      simp [execLoopAux, processDeps, hrun, hparse, hok0, hok1, List.insert]
    | false =>
      refine ⟨⟨[], 3, some d.package, 2, 2,
        [(d.package, false), (d.package, false)]⟩, ?_, by simp, by simp⟩
      rw [show fuel + 3 = (fuel + 2) + 1 from rfl]
      simp [execLoopAux, processDeps, hrun, hparse, hok0, hok1, List.insert]

/-- C3 witness: the always-failing trace with failing installs aborts
with the original error, two submissions, both for foo. -/
theorem stuck_loop_aborts_witness :
    ∃ s : LoopState,
      executeModel trC2 "python" 3 = some (Except.error msgFoo, s) ∧
      s.log.length ≤ 2 ∧
      (∀ q ∈ s.log, q.1 = (mkPythonDep "foo").package) :=
  stuck_loop_aborts trC2 "python" msgFoo (mkPythonDep "foo") 0
    (fun _n => rfl) (by decide)

/-- The first existing candidate returned by executable resolution does
exist. -/
theorem find_executable_exists {env : MgrEnv} {dir : FilePath2}
    {exeName : String} {p : FilePath2}
    (h : find_executable env dir exeName = Except.ok p) :
    env.pathExists p = true := by
  unfold find_executable at h
  rcases hf : (exeCandidates env dir exeName).find? env.pathExists with _ | c
  · rw [hf] at h
    exact absurd h (by simp)
  · rw [hf] at h
    simp only [Except.ok.injEq] at h
    subst h
    exact List.find?_some hf

/-- A successful install inserts the produced record at the front of the
index, and the record carries an existing, probe-passing executable. -/
theorem install_runtime_ok {env : MgrEnv} {s : MgrState} {language : String}
    {info : RuntimeInfo} {s1 : MgrState} {n : Nat}
    (h : install_runtime env s language = (Except.ok info, s1, n)) :
    s1.index = (language, info) :: s.index ∧
    env.pathExists info.executable = true ∧
    env.runsOk info.executable = true := by
  unfold install_runtime at h
  rcases hreg : env.registry language with _ | langDef
  · simp only [hreg] at h
    exact absurd h (by simp)
  · simp only [hreg] at h
    rcases hdl : langDef.downloads.lookup env.platform with _ | dl
    · simp only [hdl] at h
      exact absurd h (by simp)
    · simp only [hdl] at h
      rcases hdr : env.downloadResult dl.url dl.sha256 with err | archive
      · simp only [hdr] at h
        exact absurd h (by simp)
      · simp only [hdr] at h
        rcases hir : env.installResult archive
            (env.basePath ++ ["runtimes", language ++ "-" ++ langDef.version])
          with err | u
        · simp only [hir] at h
          exact absurd h (by simp)
        · simp only [hir] at h
          rcases hfe : find_executable env
              (env.basePath ++ ["runtimes", language ++ "-" ++ langDef.version])
              langDef.executable with err | exe
          · simp only [hfe] at h
            exact absurd h (by simp)
          · simp only [hfe] at h
            rcases hvr : verify_runtime env exe with err | u2
            · simp only [hvr] at h
              exact absurd h (by simp)
            · simp only [hvr] at h
              simp only [Prod.mk.injEq, Except.ok.injEq] at h
              obtain ⟨h1, h2, _⟩ := h
              subst h1
              refine ⟨by rw [← h2], find_executable_exists hfe, ?_⟩
              unfold verify_runtime at hvr
              by_cases hro : env.runsOk exe = true
              · exact hro
              · rw [if_neg (by simp [hro])] at hvr
                exact absurd hvr (by simp)

/-- C6: a second ensure_runtime call for a language whose first call
succeeded returns the very same record (hence an identical install
path), leaves the index unchanged and performs zero I/O operations. -/
theorem ensure_runtime_idempotent :
    ∀ (env : MgrEnv) (s : MgrState) (language : String)
      (info : RuntimeInfo) (s1 : MgrState) (n : Nat),
      ensure_runtime env s language = (Except.ok info, s1, n) →
      ensure_runtime env s1 language = (Except.ok info, s1, 0) := by
  intro env s language info s1 n h
  unfold ensure_runtime at h ⊢
  rcases hidx : s.index.lookup language with _ | info0
  · rw [hidx] at h
    obtain ⟨hins, _, _⟩ := install_runtime_ok h
    rw [hins]
    simp [List.lookup]
  · rw [hidx] at h
    simp only [Prod.mk.injEq, Except.ok.injEq] at h
    obtain ⟨h1, h2, _⟩ := h
    subst h1
    rw [← h2, hidx]

/-- C6 witness: a first call that installs Python yields an index from
which the second call answers with the same record and no I/O. -/
theorem ensure_runtime_idempotent_witness :
    ensure_runtime envAllOk sIndexed "python" =
      (Except.ok infoW, sIndexed, 0) :=
  ensure_runtime_idempotent envAllOk ⟨[]⟩ "python" infoW sIndexed 3
    (by decide)

/-- C1 counterexample: the startup scan seeds a runtime whose executable
exists on disk but fails the version probe, and ensure_runtime returns
it to the caller anyway — the scan path performs no runnability
probe. -/
theorem scan_seeded_runtime_not_probed :
    (ensure_runtime envScanStale (scan_installed envScanStale) "python").1
      = Except.ok infoC1 ∧
    envScanStale.pathExists infoC1.executable = true ∧
    envScanStale.runsOk infoC1.executable = false :=
  ⟨by decide, by decide, by decide⟩

/-- C1 amended: a record produced by the install path of ensure_runtime
has an executable that exists and passes the version probe; a record
seeded by the startup scan is only guaranteed an existing executable —
the scan resolves the executable but never probes it. -/
theorem runtime_executable_guarantees :
    (∀ (env : MgrEnv) (s : MgrState) (language : String)
        (info : RuntimeInfo) (s1 : MgrState) (n : Nat),
        s.index.lookup language = none →
        ensure_runtime env s language = (Except.ok info, s1, n) →
        env.pathExists info.executable = true ∧
        env.runsOk info.executable = true) ∧
    (∀ (env : MgrEnv) (path : FilePath2) (info : RuntimeInfo),
        parse_runtime_dir env path = some info →
        env.pathExists info.executable = true) := by
  constructor
  · intro env s language info s1 n hidx h
    unfold ensure_runtime at h
    rw [hidx] at h
    obtain ⟨_, h2, h3⟩ := install_runtime_ok h
    exact ⟨h2, h3⟩
  · intro env path info h
    unfold parse_runtime_dir at h
    rcases hsplit : splitOnS "-" (path.getLastD "") with _ | ⟨lang, rest⟩
    · simp only [hsplit] at h
      exact absurd h (by simp)
    · simp only [hsplit] at h
      rcases rest with _ | ⟨r0, rest⟩
      · exact absurd h (by simp)
      · rcases hreg : env.registry lang with _ | langDef
        · simp only [hreg] at h
          exact absurd h (by simp)
        · simp only [hreg] at h
          rcases hfe : find_executable env path langDef.executable with err | exe
          · simp only [hfe] at h
            exact absurd h (by simp)
          · simp only [hfe] at h
            simp only [Option.some.injEq] at h
            rw [← h]
            exact find_executable_exists hfe

/-- C1 amended witness: a concrete successful install yields an
existing, probe-passing executable, and a concrete scan-parsed record
an existing one. -/
theorem runtime_executable_guarantees_witness :
    (envAllOk.pathExists infoW.executable = true ∧
     envAllOk.runsOk infoW.executable = true) ∧
    envScanStale.pathExists infoC1.executable = true :=
  ⟨runtime_executable_guarantees.1 envAllOk ⟨[]⟩ "python" infoW sIndexed 3
      (by decide) (by decide),
   runtime_executable_guarantees.2 envScanStale
      ["home", ".piebash", "runtimes", "python-3.11.6"] infoC1 (by decide)⟩

end Piebash
